/-
Verification of the JOS kernel monitor (kern/monitor.c): a shallow
embedding of the address-translation inspection/mutation engine
(showmap, setperm, dumpmem), the permission codec (char2perm, perm2str,
str2perm), the stack unwinder (mon_backtrace) and the single-step
controller (mon_step, mon_continue), together with proofs about them.

Machine integers are embedded as Nat with explicit reductions mod 2^32
where the C code can overflow.  Paging structures are embedded as
functions: a page directory is a function from directory index to the
32-bit entry value, and the physical-memory accessor used to reach a
second-level table is a function from (table physical base, table index)
to the 32-bit leaf entry value.
-/
import Mathlib

namespace Monitor

/-- Page-table entry flag PTE_P (present), from the value comments in
char2perm (kern/monitor.c lines 152-160). -/
def PTE_P : Nat := 0x1

/-- Page-table entry flag PTE_W (writable). -/
def PTE_W : Nat := 0x2

/-- Page-table entry flag PTE_U (user). -/
def PTE_U : Nat := 0x4

/-- Page-table entry flag PTE_PWT (write-through). -/
def PTE_PWT : Nat := 0x8

/-- Page-table entry flag PTE_PCD (cache-disable). -/
def PTE_PCD : Nat := 0x10

/-- Page-table entry flag PTE_A (accessed). -/
def PTE_A : Nat := 0x20

/-- Page-table entry flag PTE_D (dirty). -/
def PTE_D : Nat := 0x40

/-- Page-table entry flag PTE_PS (superpage). -/
def PTE_PS : Nat := 0x80

/-- Page-table entry flag PTE_G (global). -/
def PTE_G : Nat := 0x100

/-- Small page size (4 KiB). -/
def PGSIZE : Nat := 0x1000

/-- Large (superpage) size (4 MiB), the LPGSIZE stride used by mon_showmap. -/
def LPGSIZE : Nat := 0x400000

/-- Shift of the page-table index field in a virtual address. -/
def PTXSHIFT : Nat := 12

/-- Shift of the page-directory index field in a virtual address. -/
def PDXSHIFT : Nat := 22

/-- Page-directory index of a virtual address: PDX(va) = (va >> 22) & 0x3FF. -/
def PDX (va : Nat) : Nat := (va >>> PDXSHIFT) &&& 0x3FF

/-- Page-table index of a virtual address: PTX(va) = (va >> 12) & 0x3FF. -/
def PTX (va : Nat) : Nat := (va >>> PTXSHIFT) &&& 0x3FF

/-- Offset within a small page: PGOFF(va) = va & 0xFFF. -/
def PGOFF (va : Nat) : Nat := va &&& 0xFFF

/-- Physical frame bits of an entry: PTE_ADDR(e) = e & ~0xFFF, where the
complement is taken on 32 bits, so the mask is 0xFFFFF000. -/
def PTE_ADDR (e : Nat) : Nat := e &&& 0xFFFFF000

/-- PGADDR(d, t, o) = (d << 22) | (t << 12) | o, on a 32-bit unsigned
integer (mon_dumpmem casts the result to uint32_t), hence the reduction
mod 2^32. -/
def PGADDR (d t o : Nat) : Nat := ((d <<< PDXSHIFT) ||| (t <<< PTXSHIFT) ||| o) % 2^32

/-- Low attribute bits of an entry, the PERM(entry) macro of monitor.c. -/
def PERM (e : Nat) : Nat := e &&& 0xFFF

/-- ROUNDDOWN(a, n): round a down to a multiple of n. -/
def ROUNDDOWN (a n : Nat) : Nat := a / n * n

/-- A page directory: directory index to 32-bit entry value.  The
directory entry macro PDE(pgdir, va) = pgdir[PDX(va)]. -/
def PDE (pg : Nat → Nat) (va : Nat) : Nat := pg (PDX va)

/-- The PTE(pgdir, va) macro of monitor.c: the second-level entry found
by following the frame pointer of the directory entry and indexing with
PTX(va).  The physical-memory accessor (the KADDR step) is the function
ptm from (second-level table base, index) to entry value. -/
def PTE (pg : Nat → Nat) (ptm : Nat → Nat → Nat) (va : Nat) : Nat :=
  ptm (PTE_ADDR (PDE pg va)) (PTX va)

/-- char2perm (kern/monitor.c lines 148-163): map a capital character to
a permission bit.  The C function returns uint32_t and its default case
returns -1, which is the 32-bit all-ones value 0xFFFFFFFF. -/
def char2perm (c : Char) : Nat :=
  match c with
  | 'G' => PTE_G
  | 'S' => PTE_PS
  | 'D' => PTE_D
  | 'A' => PTE_A
  | 'C' => PTE_PCD
  | 'T' => PTE_PWT
  | 'U' => PTE_U
  | 'W' => PTE_W
  | 'P' => PTE_P
  | _ => 0xFFFFFFFF

/-- The mnemonic table perm_string = "PWUTCADSG" of kern/monitor.c. -/
def perm_string : List Char := ['P', 'W', 'U', 'T', 'C', 'A', 'D', 'S', 'G']

/-- perm2str (kern/monitor.c lines 168-183): render a permission value
as 9 characters, bit 8 (G) first down to bit 0 (P); a set bit prints its
mnemonic, a clear bit prints a dash.  A value at or above 0x200 is first
reduced by a single subtraction of 0x200 (after a warning).  The C
function fills a caller buffer target[0..8]; the embedding returns that
buffer as a list. -/
def perm2str (perm : Nat) : List Char :=
  let p := if perm ≥ 0x200 then perm - 0x200 else perm
  (List.range 9).map (fun j =>
    if p &&& (1 <<< (8 - j)) ≠ 0 then perm_string.getD (8 - j) ' ' else '-')

/-- str2perm (kern/monitor.c lines 186-196): fold char2perm of every
character into an accumulator with bitwise or, then clear the P bit
(the final mask ~char2perm(P) is 0xFFFFFFFE on 32 bits).  The source
guard `if (perm < 0) panic(...)` compares the unsigned accumulator with
0 and can never fire, so the embedding has no error case: an
unrecognized character simply ors the 0xFFFFFFFF sentinel into the
accumulator. -/
def str2perm (l : List Char) : Nat :=
  (l.foldl (fun perm c => perm ||| char2perm c) 0) &&& 0xFFFFFFFE

/-- Modelled from the spec: pgdir_walk(pgdir, va, 0) lives in
kern/pmap.c, which is not part of the sources here; spec section 4.2
describes it as leaf_entry(space, va, allocate := false): if the
governing directory entry is absent the walk returns none (a null
pointer in C), otherwise the second-level entry indexed by the middle
bits of va. -/
def pgdir_walk (pg : Nat → Nat) (ptm : Nat → Nat → Nat) (va : Nat) : Option Nat :=
  if PDE pg va &&& PTE_P ≠ 0 then some (PTE pg ptm va) else none

/-- Result of mon_setperm: either the single targeted directory entry is
rewritten (old value, new value), or the single targeted leaf entry is
rewritten, or the command fails with no mapping and mutates nothing. -/
inductive SetpermOut where
  | updPde : Nat → Nat → SetpermOut
  | updPte : Nat → Nat → SetpermOut
  | noMapping : SetpermOut
deriving DecidableEq, Repr

/-- mon_setperm (kern/monitor.c lines 265-313), after argument parsing:
the permission string is truncated to 9 characters (strncpy into
permission[10]), decoded with str2perm, and the decode result is
truncated by the assignment to the uint16_t variable perm.  A present
superpage directory entry is rewritten to
(pde & ~0xFFF) | perm | PTE_P | PTE_PS; otherwise a present leaf entry
found by pgdir_walk is rewritten to
(pte & ~0xFFF) | (perm & 0xFFF) | PTE_P; in all other cases the command
reports no mapping and mutates nothing. -/
def mon_setperm (pg : Nat → Nat) (ptm : Nat → Nat → Nat) (va : Nat)
    (s : List Char) : SetpermOut :=
  if pg (PDX va) &&& PTE_PS ≠ 0 then
    if pg (PDX va) &&& PTE_P ≠ 0 then
      .updPde (pg (PDX va))
        ((pg (PDX va) &&& 0xFFFFF000) ||| (str2perm (s.take 9) % 2^16) |||
          PTE_P ||| PTE_PS)
    else
      .noMapping
  else
    match pgdir_walk pg ptm va with
    | some pte =>
      if pte &&& PTE_P ≠ 0 then
        .updPte pte ((pte &&& 0xFFFFF000) |||
          ((str2perm (s.take 9) % 2^16) &&& 0xFFF) ||| PTE_P)
      else
        .noMapping
    | none => .noMapping

/-- A page directory whose slot 0 is a present non-superpage entry
pointing at a second-level table at physical 0x1000 (attributes P, W, U),
all other slots absent. -/
def pgLeaf : Nat → Nat := fun d => if d = 0 then 0x1007 else 0

/-- A second-level table memory for pgLeaf: at base 0x1000, index 0 maps
frame 0x5000 (P, W) and index 1 maps frame 0x2000 (P, superpage bit
clear); everything else absent. -/
def ptmLeaf : Nat → Nat → Nat := fun b i =>
  if b = 0x1000 ∧ i = 0 then 0x5003 else if b = 0x1000 ∧ i = 1 then 0x2001 else 0

/-- A second-level table memory with no present entry at all. -/
def ptmEmpty : Nat → Nat → Nat := fun _ _ => 0

/-- A page directory whose slot 0 has the superpage bit set but the
present bit clear (entry value 0x80), all other slots zero. -/
def pgPSNotP : Nat → Nat := fun d => if d = 0 then 0x80 else 0

/-- A byte memory returning 0 everywhere. -/
def vmemZero : Nat → Nat := fun _ => 0

/-- A page directory in which every slot is a present non-superpage
entry pointing at a table at physical 0x1000. -/
def pgAllLeaf : Nat → Nat := fun _ => 0x1007

/-- A second-level table memory in which every entry is present with
frame 0x5000 (P, W). -/
def ptmAllLeaf : Nat → Nat → Nat := fun _ _ => 0x5003

/-- One observation of mon_showmap: a mapped step (virtual address,
printed physical address, decoded permission string, superpage flag) or
the single no-mapping report. -/
inductive MapObs where
  | mapped : Nat → Nat → List Char → Bool → MapObs
  | unmapped : Nat → MapObs
deriving DecidableEq, Repr

/-- The loop of mon_showmap (kern/monitor.c lines 224-257), one fuel
unit per entry into the loop head.  The C loop can fail to terminate
(a present non-superpage directory entry whose leaf entry is absent
advances nothing), so the embedding returns none when the fuel is
exhausted; a C execution that terminates is reproduced exactly by any
sufficiently large fuel.  On success the result carries the emitted
observations and the int return value of the command. -/
def showmapLoop (pg : Nat → Nat) (ptm : Nat → Nat → Nat) (vend : Nat) :
    Nat → Nat → Option (List MapObs × Int)
  | 0, _ => none
  | fuel + 1, v =>
    if v ≤ vend then
      if PDE pg v &&& PTE_P ≠ 0 then
        if PDE pg v &&& PTE_PS ≠ 0 then
          match showmapLoop pg ptm vend fuel ((v + LPGSIZE) % 2^32) with
          | some (obs, rc) =>
            some (.mapped v (PTE_ADDR (PDE pg v) ||| (PTX v <<< PTXSHIFT))
                    (perm2str (PERM (PDE pg v))) true :: obs, rc)
          | none => none
        else
          if PTE pg ptm v &&& PTE_P ≠ 0 then
            match showmapLoop pg ptm vend fuel ((v + PGSIZE) % 2^32) with
            | some (obs, rc) =>
              some (.mapped v (PTE_ADDR (PDE pg v))
                      (perm2str (PERM (PTE pg ptm v))) false :: obs, rc)
            | none => none
          else
            showmapLoop pg ptm vend fuel v
      else
        some ([.unmapped v], 1)
    else
      some ([], 0)

/-- mon_showmap (kern/monitor.c lines 203-263) after argument parsing:
vend = vstart + vlen is computed on uint32 before vstart is rounded
down to a page boundary, then the loop runs while vstart <= vend.  The
printed physical address of a normal (non-superpage) step is
PTE_ADDR(pde), exactly as in the source. -/
def mon_showmap (pg : Nat → Nat) (ptm : Nat → Nat → Nat) (start len fuel : Nat) :
    Option (List MapObs × Int) :=
  showmapLoop pg ptm ((start + len) % 2^32) fuel (ROUNDDOWN start PGSIZE)

/-- One observation of virtual-mode mon_dumpmem: a dumped byte (virtual
address, printed physical address, byte value) or a per-byte no-mapping
report. -/
inductive DumpObs where
  | byte : Nat → Nat → Nat → DumpObs
  | unmapped : Nat → DumpObs
deriving DecidableEq, Repr

/-- The virtual-mode loop of mon_dumpmem (kern/monitor.c lines 363-394),
one fuel unit per entry into the while head; vmem is the byte-value
accessor for a dereference of a virtual address.  Each iteration
computes a chunk bound next (clamped to mend) and emits one observation
per address in [mstart, next); when next <= mstart the iteration emits
nothing and leaves mstart unchanged, exactly as the C for-loops do, so
a loop that makes no progress exhausts the fuel and yields none. -/
def dumpmemLoop (pg : Nat → Nat) (ptm : Nat → Nat → Nat) (vmem : Nat → Nat)
    (mend : Nat) : Nat → Nat → Option (List DumpObs)
  | 0, _ => none
  | fuel + 1, m =>
    if m < mend then
      let pde := PDE pg m
      if pde &&& PTE_PS ≠ 0 then
        if pde &&& PTE_P ≠ 0 then
          let next := min (PGADDR (PDX m) (PTX m + 1) 0) mend
          let obs := (List.range (next - m)).map (fun k =>
            DumpObs.byte (m + k)
              (PTE_ADDR pde ||| (PTX (m + k) <<< PTXSHIFT) ||| PGOFF (m + k))
              (vmem (m + k)))
          match dumpmemLoop pg ptm vmem mend fuel (max m next) with
          | some rest => some (obs ++ rest)
          | none => none
        else
          match dumpmemLoop pg ptm vmem mend fuel m with
          | some rest => some (DumpObs.unmapped m :: rest)
          | none => none
      else
        match pgdir_walk pg ptm m with
        | none =>
          let next := min (PGADDR (PDX m + 1) 0 0) mend
          let obs := (List.range (next - m)).map (fun k => DumpObs.unmapped (m + k))
          match dumpmemLoop pg ptm vmem mend fuel (max m next) with
          | some rest => some (obs ++ rest)
          | none => none
        | some pte =>
          if pte &&& PTE_P = 0 then
            let next := min (PGADDR (PDX m) (PTX m + 1) 0) mend
            let obs := (List.range (next - m)).map (fun k => DumpObs.unmapped (m + k))
            match dumpmemLoop pg ptm vmem mend fuel (max m next) with
            | some rest => some (obs ++ rest)
            | none => none
          else
            let next := min (PGADDR (PDX m) (PTX m + 1) 0) mend
            let obs := (List.range (next - m)).map (fun k =>
              DumpObs.byte (m + k) (PTE_ADDR pte ||| PGOFF (m + k)) (vmem (m + k)))
            match dumpmemLoop pg ptm vmem mend fuel (max m next) with
            | some rest => some (obs ++ rest)
            | none => none
    else
      some []

/-- Virtual-mode mon_dumpmem (kern/monitor.c lines 363-394) after
argument parsing: mend = mstart + mlen on uint32, then the chunked walk;
the physical mode (a plain clamped byte loop) is not modelled because no
property here concerns it. -/
def mon_dumpmem (pg : Nat → Nat) (ptm : Nat → Nat → Nat) (vmem : Nat → Nat)
    (start len fuel : Nat) : Option (List DumpObs) :=
  dumpmemLoop pg ptm vmem ((start + len) % 2^32) fuel start

/-- One frame printed by mon_backtrace: the frame pointer, the return
address read from the word above it, and the four words above that. -/
structure StackFrame where
  ebp : Nat
  eip : Nat
  args : List Nat
deriving DecidableEq, Repr

/-- The frame mon_backtrace prints for a frame pointer fp, reading the
word memory mem (a function from byte address to 32-bit word):
eip = mem(fp + 4) and args = mem(fp + 8) .. mem(fp + 20). -/
def frameOf (mem : Nat → Nat) (fp : Nat) : StackFrame :=
  ⟨fp, mem (fp + 4), [mem (fp + 8), mem (fp + 12), mem (fp + 16), mem (fp + 20)]⟩

/-- The loop of mon_backtrace (kern/monitor.c lines 78-104): while the
frame pointer is nonzero, print the frame and load the next frame
pointer from the first word of the current frame.  A chain that never
reaches zero does not terminate, so the embedding spends one fuel unit
per entry into the loop head and yields none on exhaustion. -/
def backtraceLoop (mem : Nat → Nat) : Nat → Nat → Option (List StackFrame)
  | 0, _ => none
  | fuel + 1, ebp =>
    if ebp = 0 then
      some []
    else
      match backtraceLoop mem fuel (mem ebp) with
      | some rest => some (frameOf mem ebp :: rest)
      | none => none

/-- mon_backtrace on initial frame pointer ebp0 (the read_ebp() value
supplied by the surrounding context). -/
def mon_backtrace (mem : Nat → Nat) (ebp0 fuel : Nat) : Option (List StackFrame) :=
  backtraceLoop mem fuel ebp0

/-- Does the walk from ebp visit exactly the frame pointers fps and then
reach zero?  Boolean so that concrete instances evaluate. -/
def chainb (mem : Nat → Nat) : Nat → List Nat → Bool
  | e, [] => e == 0
  | e, f :: rest => e == f && f != 0 && chainb mem (mem f) rest

/-- Trap number of the debug exception, from inc/trap.h (x86 vector 1). -/
def T_DEBUG : Nat := 1

/-- Trap number of the breakpoint exception, from inc/trap.h (x86 vector 3). -/
def T_BRKPT : Nat := 3

/-- The x86 trap (single-step) flag in EFLAGS, from inc/mmu.h. -/
def FL_TF : Nat := 0x100

/-- Modelled from the spec: struct Trapframe is declared in inc/trap.h,
which is not among the sources here; spec section 3 (TrapContext) lists
the trap number, the saved flags and the saved code segment, and the
remaining saved registers of the standard JOS layout are carried so that
unchanged means byte-for-byte unchanged. -/
structure Trapframe where
  tf_regs : List Nat
  tf_es : Nat
  tf_ds : Nat
  tf_trapno : Nat
  tf_err : Nat
  tf_eip : Nat
  tf_cs : Nat
  tf_eflags : Nat
  tf_esp : Nat
  tf_ss : Nat
deriving DecidableEq, Repr

/-- mon_step (kern/monitor.c lines 402-411): unless the context exists,
its trap number is T_DEBUG or T_BRKPT and its saved code segment has
privilege level 3, return 0 (stay in the monitor) touching nothing;
otherwise set FL_TF in the saved flags and return -1 (resume).  The
embedding returns the possibly updated context together with the int
return value. -/
def mon_step (otf : Option Trapframe) : Option Trapframe × Int :=
  match otf with
  | none => (none, 0)
  | some tf =>
    if (tf.tf_trapno = T_DEBUG ∨ tf.tf_trapno = T_BRKPT) ∧ tf.tf_cs &&& 3 = 3 then
      (some { tf with tf_eflags := tf.tf_eflags ||| FL_TF }, -1)
    else
      (some tf, 0)

/-- mon_continue (kern/monitor.c lines 413-422): same gate as mon_step;
on success clear FL_TF (the mask ~FL_TF on 32 bits is 0xFFFFFEFF) and
return -1. -/
def mon_continue (otf : Option Trapframe) : Option Trapframe × Int :=
  match otf with
  | none => (none, 0)
  | some tf =>
    if (tf.tf_trapno = T_DEBUG ∨ tf.tf_trapno = T_BRKPT) ∧ tf.tf_cs &&& 3 = 3 then
      (some { tf with tf_eflags := tf.tf_eflags &&& 0xFFFFFEFF }, -1)
    else
      (some tf, 0)

/-- A word memory holding a two-frame stack: frame pointer 0x100 saves
next frame pointer 0x200 and return address 0x111 with argument words
1, 2, 3, 4; frame pointer 0x200 saves next frame pointer 0 and return
address 0x222. -/
def memStack : Nat → Nat := fun a =>
  if a = 0x100 then 0x200
  else if a = 0x104 then 0x111
  else if a = 0x108 then 1
  else if a = 0x10C then 2
  else if a = 0x110 then 3
  else if a = 0x114 then 4
  else if a = 0x204 then 0x222
  else 0

/-- A trap context qualifying for step/continue: breakpoint trap taken
from a user-mode code segment (privilege level 3). -/
def tfQ : Trapframe :=
  ⟨[], 0x23, 0x23, 3, 0, 0x800020, 0x1B, 0x200, 0xEEBFE000, 0x23⟩

/-- All characters with a mnemonic mapping in char2perm. -/
def mnChars : List Char := ['G', 'S', 'D', 'A', 'C', 'T', 'U', 'W', 'P']

/-- Claim C10: the encode table and the decode table are mutually
consistent: for every index i below 9, char2perm applied to the i-th
character of perm_string ("PWUTCADSG") is exactly the single bit
1 <<< i, so each mnemonic letter denotes the same bit position in both
directions. -/
theorem char2perm_perm_string (i : Nat) (h : i < 9) :
    char2perm (perm_string.getD i ' ') = 1 <<< i := by
  interval_cases i <;> decide

/-- Witness for char2perm_perm_string at i = 4. -/
theorem char2perm_perm_string_w :
    4 < 9 ∧ char2perm (perm_string.getD 4 ' ') = 1 <<< 4 :=
  ⟨by decide, char2perm_perm_string 4 (by decide)⟩

/-- Claim C2 is false on the source: p = 2 is a 9-bit permission set with
the Present bit clear, yet decode of its encoding is 0xFFFFFFFE, not 2,
because the eight dash placeholders of the encoding have no decode case
and each ors the 0xFFFFFFFF sentinel into the accumulator. -/
theorem codec_roundtrip_cex :
    2 < 0x200 ∧ 2 &&& 1 = 0 ∧ str2perm (perm2str 2) = 0xFFFFFFFE ∧
      str2perm (perm2str 2) ≠ 2 := by decide

set_option maxRecDepth 40000 in
/-- Claim C2, amended: for every 9-bit permission set p with the Present
bit clear, decoding the encoding of p with the dash placeholders removed
returns p again, and the encode output is always exactly 9 characters,
each a dash or drawn from the mnemonic alphabet. -/
theorem codec_roundtrip (p : Nat) (hp : p < 0x200) (hP : p &&& 1 = 0) :
    str2perm ((perm2str p).filter (fun c => c != '-')) = p ∧
    (perm2str p).length = 9 ∧
    ∀ c ∈ perm2str p, c = '-' ∨ c ∈ perm_string := by
  revert hP
  revert hp
  revert p
  decide

/-- Witness for codec_roundtrip at p = 2. -/
theorem codec_roundtrip_w :
    2 < 0x200 ∧ 2 &&& 1 = 0 ∧
      (str2perm ((perm2str 2).filter (fun c => c != '-')) = 2 ∧
       (perm2str 2).length = 9 ∧
       ∀ c ∈ perm2str 2, c = '-' ∨ c ∈ perm_string) :=
  ⟨by decide, by decide, codec_roundtrip 2 (by decide) (by decide)⟩

/-- Claim C1: the source violates the claim.  On the permission string
WPZ, char2perm of the unknown character Z returns the 32-bit sentinel
0xFFFFFFFF, which str2perm silently ors into the accumulated set (its
`perm < 0` guard compares an unsigned value and never fires), yielding
0xFFFFFFFE; mon_setperm then rewrites the targeted present leaf entry
0x2001 to 0x2FFF instead of failing, so the mutation does happen and no
error is raised. -/
theorem setperm_unknown_char_mutates :
    str2perm ['W', 'P', 'Z'] = 0xFFFFFFFE ∧
    mon_setperm pgLeaf ptmLeaf 0x1000 ['W', 'P', 'Z'] =
      SetpermOut.updPte 0x2001 0x2FFF := by decide

/-- Bitwise and distributes over bitwise or from the right. -/
theorem land_lor_right (a b c : Nat) : (a ||| b) &&& c = a &&& c ||| b &&& c := by
  rw [Nat.and_comm, Nat.and_or_distrib_left, Nat.and_comm c a, Nat.and_comm c b]

/-- Distribution over a three-term or. -/
theorem land_lor_right3 (a b c M : Nat) :
    (a ||| b ||| c) &&& M = a &&& M ||| b &&& M ||| c &&& M := by
  rw [land_lor_right, land_lor_right]

/-- Distribution over a four-term or. -/
theorem land_lor_right4 (a b c d M : Nat) :
    (a ||| b ||| c ||| d) &&& M = a &&& M ||| b &&& M ||| c &&& M ||| d &&& M := by
  rw [land_lor_right, land_lor_right3]

/-- An or is nonzero when its right operand is. -/
theorem lor_ne_zero_right (a b : Nat) (hb : b ≠ 0) : a ||| b ≠ 0 := by
  intro h
  apply hb
  refine Nat.eq_of_testBit_eq fun i => ?_
  have hi : Nat.testBit (a ||| b) i = Nat.testBit 0 i := by rw [h]
  rw [Nat.testBit_or, Nat.zero_testBit, Bool.or_eq_false_iff] at hi
  simp [hi.2]

/-- An or is nonzero when its left operand is. -/
theorem lor_ne_zero_left (a b : Nat) (ha : a ≠ 0) : a ||| b ≠ 0 := by
  rw [Nat.or_comm]
  exact lor_ne_zero_right b a ha

/-- A value below 2^12 has no bit in common with the frame mask. -/
theorem low_land_high (a : Nat) (ha : a < 0x1000) : a &&& 0xFFFFF000 = 0 := by
  refine Nat.eq_of_testBit_eq fun i => ?_
  rw [Nat.testBit_and, Nat.zero_testBit]
  rcases Nat.lt_or_ge i 12 with h | h
  · have hm : Nat.testBit 0xFFFFF000 i = false := by interval_cases i <;> decide
    simp [hm]
  · have hx : Nat.testBit a i = false :=
      Nat.testBit_lt_two_pow
        (lt_of_lt_of_le (by omega) (Nat.pow_le_pow_right (by omega) h))
    simp [hx]

/-- Every mnemonic character decodes to a value below 0x200. -/
theorem char2perm_lt_of_mem {c : Char} (h : c ∈ mnChars) : char2perm c < 0x200 := by
  fin_cases h <;> decide

/-- The decode accumulator stays below 0x200 on mnemonic input. -/
theorem foldl_lor_lt (l : List Char) (hl : ∀ c ∈ l, c ∈ mnChars) :
    ∀ acc : Nat, acc < 0x200 →
      l.foldl (fun p c => p ||| char2perm c) acc < 0x200 := by
  induction l with
  | nil => intro acc h; simpa using h
  | cons c t ih =>
    intro acc h
    simp only [List.foldl_cons]
    refine ih (fun d hd => hl d (List.mem_cons_of_mem _ hd)) _ ?_
    have h1 : char2perm c < 0x200 := char2perm_lt_of_mem (hl c (List.mem_cons_self _ _))
    have h2 : (0x200 : Nat) = 2 ^ 9 := by norm_num
    rw [h2] at h h1 ⊢
    exact Nat.or_lt_two_pow h h1

/-- str2perm of a string of mnemonic characters stays below 0x200. -/
theorem str2perm_lt (l : List Char) (hl : ∀ c ∈ l, c ∈ mnChars) :
    str2perm l < 0x200 :=
  lt_of_le_of_lt Nat.and_le_left (foldl_lor_lt l hl 0 (by norm_num))

/-- Claim C3 is false on the source: setperm with the recognized
permission string S on the existing present leaf entry 0x2001 (whose bit
7, the superpage position, is clear) rewrites it to 0x2081, whose bit 7
is set, so the superpage bit of the entry does not equal its value
before the mutation. -/
theorem setperm_flips_superpage_bit_cex :
    mon_setperm pgLeaf ptmLeaf 0x1000 ['S'] = SetpermOut.updPte 0x2001 0x2081 ∧
    0x2001 &&& PTE_PS = 0 ∧ 0x2081 &&& PTE_PS ≠ 0 := by decide

/-- Claim C3, amended: for every setperm invocation on an existing
present mapping whose permission string consists of recognized
mnemonics, the command rewrites only the single targeted entry, the
resulting entry has the Present bit set, and its physical frame address
bits are unchanged; on the superpage path the Superpage bit is forcibly
re-asserted (hence preserved), while on the leaf path the bit at the
Superpage position is set to exactly the S bit of the decoded string, so
it is preserved only when the string does not contain S. -/
theorem setperm_attr_only (pg : Nat → Nat) (ptm : Nat → Nat → Nat) (va : Nat)
    (s : List Char) (hs : ∀ c ∈ s, c ∈ mnChars) :
    (pg (PDX va) &&& PTE_PS ≠ 0 → pg (PDX va) &&& PTE_P ≠ 0 →
      ∃ eNew, mon_setperm pg ptm va s = SetpermOut.updPde (pg (PDX va)) eNew ∧
        eNew &&& PTE_P ≠ 0 ∧ eNew &&& PTE_PS ≠ 0 ∧
        PTE_ADDR eNew = PTE_ADDR (pg (PDX va))) ∧
    (pg (PDX va) &&& PTE_PS = 0 → pg (PDX va) &&& PTE_P ≠ 0 →
      PTE pg ptm va &&& PTE_P ≠ 0 →
      ∃ eNew, mon_setperm pg ptm va s = SetpermOut.updPte (PTE pg ptm va) eNew ∧
        eNew &&& PTE_P ≠ 0 ∧ eNew &&& PTE_PS = str2perm (s.take 9) &&& PTE_PS ∧
        PTE_ADDR eNew = PTE_ADDR (PTE pg ptm va)) := by
  have hsub : ∀ c ∈ s.take 9, c ∈ mnChars := fun c hc => hs c (List.take_subset 9 s hc)
  have hlt : str2perm (s.take 9) < 0x200 := str2perm_lt _ hsub
  have hmod : str2perm (s.take 9) % 2 ^ 16 = str2perm (s.take 9) :=
    Nat.mod_eq_of_lt (by omega)
  constructor
  · intro hPS hP
    refine ⟨(pg (PDX va) &&& 0xFFFFF000) ||| (str2perm (s.take 9) % 2 ^ 16) |||
      PTE_P ||| PTE_PS, ?_, ?_, ?_, ?_⟩
    · unfold mon_setperm
      rw [if_pos hPS, if_pos hP]
    · rw [hmod, land_lor_right4]
      exact lor_ne_zero_left _ _ (lor_ne_zero_right _ _ (by decide))
    · rw [hmod, land_lor_right4]
      exact lor_ne_zero_right _ _ (by decide)
    · rw [hmod]
      unfold PTE_ADDR
      rw [land_lor_right4, Nat.and_assoc, Nat.and_self,
        low_land_high (str2perm (s.take 9)) (by omega),
        (by decide : PTE_P &&& 0xFFFFF000 = 0),
        (by decide : PTE_PS &&& 0xFFFFF000 = 0), Nat.or_zero, Nat.or_zero, Nat.or_zero]
  · intro hPS hP hpte
    have hwalk : pgdir_walk pg ptm va = some (PTE pg ptm va) := by
      unfold pgdir_walk PDE
      rw [if_pos hP]
    refine ⟨(PTE pg ptm va &&& 0xFFFFF000) |||
      ((str2perm (s.take 9) % 2 ^ 16) &&& 0xFFF) ||| PTE_P, ?_, ?_, ?_, ?_⟩
    · unfold mon_setperm
      rw [if_neg (by simpa using hPS), hwalk]
      simp only [if_pos hpte]
    · rw [hmod, land_lor_right3]
      exact lor_ne_zero_right _ _ (by decide)
    · rw [hmod]
      unfold PTE_PS
      rw [land_lor_right3, Nat.and_assoc, (by decide : (0xFFFFF000 : Nat) &&& 0x80 = 0),
        Nat.and_zero, Nat.and_assoc, (by decide : (0xFFF : Nat) &&& 0x80 = 0x80),
        (by decide : PTE_P &&& (0x80 : Nat) = 0), Nat.or_zero, Nat.zero_or]
    · rw [hmod]
      unfold PTE_ADDR
      rw [land_lor_right3, Nat.and_assoc, Nat.and_self, Nat.and_assoc,
        (by decide : (0xFFF : Nat) &&& 0xFFFFF000 = 0), Nat.and_zero,
        (by decide : PTE_P &&& 0xFFFFF000 = 0), Nat.or_zero, Nat.or_zero]

/-- Witness for setperm_attr_only: string W on the present leaf entry at
va 0x1000 of pgLeaf. -/
theorem setperm_attr_only_w :
    ∃ eNew,
      mon_setperm pgLeaf ptmLeaf 0x1000 ['W'] =
        SetpermOut.updPte (PTE pgLeaf ptmLeaf 0x1000) eNew ∧
      eNew &&& PTE_P ≠ 0 ∧
      eNew &&& PTE_PS = str2perm (['W'].take 9) &&& PTE_PS ∧
      PTE_ADDR eNew = PTE_ADDR (PTE pgLeaf ptmLeaf 0x1000) :=
  (setperm_attr_only pgLeaf ptmLeaf 0x1000 ['W'] (by decide)).2
    (by decide) (by decide) (by decide)

/-- Claim C8: for every trap context whose trap number is neither
T_DEBUG nor T_BRKPT, or whose saved code segment is not privilege level
3 (and for the null context), mon_step and mon_continue return 0 and
leave the context byte-for-byte unchanged; for every qualifying context
mon_step sets FL_TF in the saved flags (mon_continue clears it) and
returns -1 to resume execution. -/
theorem step_continue_gating (tf : Trapframe) :
    (¬((tf.tf_trapno = T_DEBUG ∨ tf.tf_trapno = T_BRKPT) ∧ tf.tf_cs &&& 3 = 3) →
      mon_step (some tf) = (some tf, 0) ∧ mon_continue (some tf) = (some tf, 0)) ∧
    (((tf.tf_trapno = T_DEBUG ∨ tf.tf_trapno = T_BRKPT) ∧ tf.tf_cs &&& 3 = 3) →
      mon_step (some tf) = (some { tf with tf_eflags := tf.tf_eflags ||| FL_TF }, -1) ∧
      mon_continue (some tf) =
        (some { tf with tf_eflags := tf.tf_eflags &&& 0xFFFFFEFF }, -1)) ∧
    mon_step none = (none, 0) ∧ mon_continue none = (none, 0) := by
  refine ⟨fun h => ?_, fun h => ?_, rfl, rfl⟩ <;>
    simp [mon_step, mon_continue, h]

/-- Witness for step_continue_gating at the qualifying context tfQ. -/
theorem step_continue_gating_w :
    mon_step (some tfQ) = (some { tfQ with tf_eflags := tfQ.tf_eflags ||| FL_TF }, -1) ∧
    mon_continue (some tfQ) =
      (some { tfQ with tf_eflags := tfQ.tf_eflags &&& 0xFFFFFEFF }, -1) :=
  (step_continue_gating tfQ).2.1 ⟨Or.inr (by decide), by decide⟩

/-- Claim C4: the source violates the claim on the normal-leaf path.
At va 0 of pgLeaf (directory entry 0x1007, second-level table at
physical 0x1000, present leaf entry 0x5003 with frame 0x5000), showmap
emits a Mapped observation whose physical address is 0x1000 — PTE_ADDR
of the directory entry, i.e. the address of the second-level table
itself — although the physical frame recorded in the leaf entry is
0x5000. -/
theorem showmap_prints_table_address :
    mon_showmap pgLeaf ptmLeaf 0 1 2 =
      some ([MapObs.mapped 0 0x1000
        ['-', '-', '-', '-', '-', '-', '-', 'W', 'P'] false], 0) ∧
    PTE_ADDR (PTE pgLeaf ptmLeaf 0) = 0x5000 ∧ (0x1000 : Nat) ≠ 0x5000 := by
  decide

/-- Claim C5: the source violates the claim on the leaf-absent kind of
gap.  With a present non-superpage directory entry whose leaf entry is
not present (pgLeaf over the empty table memory), the loop body neither
emits an observation nor advances vstart — the inner conditional has no
else branch — so showmap loops forever producing no output instead of
emitting one Unmapped observation and terminating: in the fuel
embedding the run is none for every fuel. -/
theorem showmap_gap_hangs (fuel : Nat) :
    mon_showmap pgLeaf ptmEmpty 0 1 fuel = none := by
  induction fuel with
  | zero => rfl
  | succ f ih => exact ih

/-- Claim C6: the source violates the claim.  On a directory entry with
the superpage bit set but the present bit clear (pgPSNotP, entry 0x80),
virtual-mode dumpmem prints one no-mapping line per while iteration but
never advances mstart, so a dump of the single byte at address 0 never
terminates and never settles on exactly one observation: in the fuel
embedding the run is none for every fuel. -/
theorem dumpmem_ps_notp_hangs (fuel : Nat) :
    mon_dumpmem pgPSNotP ptmEmpty vmemZero 0 1 fuel = none := by
  induction fuel with
  | zero => rfl
  | succ f ih =>
    have h : mon_dumpmem pgPSNotP ptmEmpty vmemZero 0 1 (f + 1) =
        match mon_dumpmem pgPSNotP ptmEmpty vmemZero 0 1 f with
        | some rest => some (DumpObs.unmapped 0 :: rest)
        | none => none := rfl
    rw [h, ih]

/-- Claim C7 is false on the source: over pgAllLeaf/ptmAllLeaf every
step is a mapped small page, yet showmap from address 0 over length
0x1000 emits 2 Mapped observations, not ceil(0x1000 / 0x1000) = 1,
because the loop condition vstart <= vend is inclusive. -/
theorem showmap_count_cex :
    (mon_showmap pgAllLeaf ptmAllLeaf 0 0x1000 5).map (fun r => r.1.length) =
      some 2 ∧
    (0x1000 + 0x1000 - 1) / 0x1000 = 1 ∧ (2 : Nat) ≠ 1 := by
  decide

/-- Helper for the gap-free showmap count: on a directory whose every
entry is present and non-superpage with every leaf entry present, the
loop from v emits (vend - v) / 0x1000 + 1 Mapped observations and
returns 0, for any fuel of at least (vend - v) / 0x1000 + 2 loop
entries. -/
theorem showmapLoop_allsmall (pg : Nat → Nat) (ptm : Nat → Nat → Nat)
    (hpde : ∀ w, PDE pg w &&& PTE_P ≠ 0 ∧ PDE pg w &&& PTE_PS = 0)
    (hpte : ∀ w, PTE pg ptm w &&& PTE_P ≠ 0) (vend : Nat)
    (hov : vend + 0x1000 < 2 ^ 32) :
    ∀ fuel v, v ≤ vend → (vend - v) / 0x1000 + 2 ≤ fuel →
      ∃ obs, showmapLoop pg ptm vend fuel v = some (obs, 0) ∧
        obs.length = (vend - v) / 0x1000 + 1 ∧
        ∀ o ∈ obs, ∃ w pa p, o = MapObs.mapped w pa p false := by
  intro fuel
  induction fuel with
  | zero => intro v hv hf; omega
  | succ f ih =>
    intro v hv hf
    have hstep : showmapLoop pg ptm vend (f + 1) v =
        match showmapLoop pg ptm vend f (v + 0x1000) with
        | some (obs, rc) =>
          some (MapObs.mapped v (PTE_ADDR (PDE pg v))
                  (perm2str (PERM (PTE pg ptm v))) false :: obs, rc)
        | none => none := by
      have hm : (v + PGSIZE) % 2 ^ 32 = v + 0x1000 := by
        simp only [PGSIZE]
        exact Nat.mod_eq_of_lt (by omega)
      simp only [showmapLoop]
      rw [if_pos hv, if_pos (hpde v).1, if_neg (fun h => h (hpde v).2),
        if_pos (hpte v), hm]
    rcases Nat.lt_or_ge vend (v + 0x1000) with hgt | hle
    · obtain ⟨f', rfl⟩ : ∃ f', f = f' + 1 := ⟨f - 1, by omega⟩
      have hterm : showmapLoop pg ptm vend (f' + 1) (v + 0x1000) = some ([], 0) := by
        simp only [showmapLoop]
        rw [if_neg (by omega)]
      refine ⟨[MapObs.mapped v (PTE_ADDR (PDE pg v))
        (perm2str (PERM (PTE pg ptm v))) false], ?_, ?_, ?_⟩
      · rw [hstep, hterm]
      · have : (vend - v) / 0x1000 = 0 := by omega
        simp [this]
      · intro o ho
        rcases List.mem_singleton.mp ho with rfl
        exact ⟨v, _, _, rfl⟩
    · obtain ⟨obs, hobs, hlen, hall⟩ :=
        ih (v + 0x1000) hle (by omega)
      refine ⟨MapObs.mapped v (PTE_ADDR (PDE pg v))
        (perm2str (PERM (PTE pg ptm v))) false :: obs, ?_, ?_, ?_⟩
      · rw [hstep, hobs]
      · simp only [List.length_cons, hlen]
        omega
      · intro o ho
        rcases List.mem_cons.mp ho with rfl | hmem
        · exact ⟨v, _, _, rfl⟩
        · exact hall o hmem

/-- Claim C7, amended: over a gap-free range in which every step lands
on a present small page, showmap rounds the start down to a page
boundary and emits exactly (start + length - rounddown(start)) / 0x1000
+ 1 Mapped observations — one per page boundary w with
rounddown(start) <= w <= start + length, the loop bound being inclusive
— and terminates normally, returning 0. -/
theorem showmap_nogap_count (pg : Nat → Nat) (ptm : Nat → Nat → Nat)
    (start len fuel : Nat)
    (hpde : ∀ w, PDE pg w &&& PTE_P ≠ 0 ∧ PDE pg w &&& PTE_PS = 0)
    (hpte : ∀ w, PTE pg ptm w &&& PTE_P ≠ 0)
    (hov : start + len + 0x1000 < 2 ^ 32)
    (hfuel : (start + len - ROUNDDOWN start PGSIZE) / 0x1000 + 2 ≤ fuel) :
    ∃ obs, mon_showmap pg ptm start len fuel = some (obs, 0) ∧
      obs.length = (start + len - ROUNDDOWN start PGSIZE) / 0x1000 + 1 ∧
      ∀ o ∈ obs, ∃ w pa p, o = MapObs.mapped w pa p false := by
  have hrd : ROUNDDOWN start PGSIZE ≤ start := Nat.div_mul_le_self start PGSIZE
  have hmod : (start + len) % 2 ^ 32 = start + len := Nat.mod_eq_of_lt (by omega)
  unfold mon_showmap
  rw [hmod]
  exact showmapLoop_allsmall pg ptm hpde hpte (start + len) (by omega) fuel
    (ROUNDDOWN start PGSIZE) (by omega) hfuel

/-- Witness for showmap_nogap_count on pgAllLeaf from 0 over one page. -/
theorem showmap_nogap_count_w :
    ∃ obs, mon_showmap pgAllLeaf ptmAllLeaf 0 0x1000 3 = some (obs, 0) ∧
      obs.length = (0 + 0x1000 - ROUNDDOWN 0 PGSIZE) / 0x1000 + 1 ∧
      ∀ o ∈ obs, ∃ w pa p, o = MapObs.mapped w pa p false :=
  showmap_nogap_count pgAllLeaf ptmAllLeaf 0 0x1000 3
    (fun w => ⟨by simp only [PDE, pgAllLeaf]; decide,
               by simp only [PDE, pgAllLeaf]; decide⟩)
    (fun w => by simp only [PTE, ptmAllLeaf]; decide)
    (by decide) (by decide)

/-- Claim C9: on a frame-pointer chain ebp = fp0, mem fp0 = fp1, ...,
mem fp(N-1) = 0 with every fpi nonzero, mon_backtrace emits exactly N
StackFrame entries, in chain order fp0, fp1, ..., each carrying the
return address read from the word above the frame pointer and exactly
the four argument words above that, and it terminates when the frame
pointer reaches zero. -/
theorem backtrace_chain (mem : Nat → Nat) (fps : List Nat) (ebp fuel : Nat)
    (hc : chainb mem ebp fps = true) (hf : fps.length + 1 ≤ fuel) :
    mon_backtrace mem ebp fuel = some (fps.map (frameOf mem)) ∧
    (fps.map (frameOf mem)).length = fps.length := by
  refine ⟨?_, List.length_map fps (frameOf mem)⟩
  unfold mon_backtrace
  induction fps generalizing ebp fuel with
  | nil =>
    have he : ebp = 0 := by simpa [chainb] using hc
    obtain ⟨f, rfl⟩ : ∃ f, fuel = f + 1 := ⟨fuel - 1, by omega⟩
    simp [backtraceLoop, he]
  | cons g t ih =>
    obtain ⟨⟨heq, hne⟩, hrest⟩ : (ebp = g ∧ g ≠ 0) ∧ chainb mem (mem g) t = true := by
      simpa [chainb, Bool.and_eq_true] using hc
    obtain ⟨f, rfl⟩ : ∃ f, fuel = f + 1 := ⟨fuel - 1, by omega⟩
    subst heq
    have hrec := ih (mem ebp) f hrest (by simpa using Nat.le_of_succ_le_succ hf)
    simp only [backtraceLoop, if_neg hne, hrec, List.map_cons]

/-- Witness for backtrace_chain on the two-frame stack memStack. -/
theorem backtrace_chain_w :
    mon_backtrace memStack 0x100 3 =
      some ([0x100, 0x200].map (frameOf memStack)) ∧
    ([0x100, 0x200].map (frameOf memStack)).length = [0x100, 0x200].length :=
  backtrace_chain memStack [0x100, 0x200] 0x100 3 (by decide) (by decide)

end Monitor
